import Mathlib

/-!
Verification of the fuse-netcdf playground (`ncfsplayground/fusenetcdf.py`)
against its natural-language specification.

Shallow embedding conventions:
* Python 2 `str` values (which are byte strings) are modelled as `List Char`
  (`Bytes`); lengths in characters coincide with byte lengths for the ASCII
  content this program produces.
* The numeric payload of a variable is modelled as a list of integers (the
  sample values appearing in the specification's end-to-end test are the
  integral floats 1.0 and 2.0); the configurable numpy format string of
  `VardataAsFlatTextFiles` is modelled as a function from a payload value to
  its formatted text.
* Python dicts (`dataset.variables`, attribute tables) are association lists;
  fallible lookups (`KeyError`, `AttributeError`, missing `self` attributes,
  undefined names) are `Option` / `Except PyErr` values.
* Methods that in Python could mutate `self` are embedded as functions that
  also return the (possibly updated) `NCFS` record, where relevant.
-/

namespace FuseNetcdf

/-- Byte strings (Python 2 `str`). -/
abbrev Bytes := List Char

/-- Python `needle in hay` substring containment on strings. -/
def infixOf (needle : Bytes) : Bytes → Bool
  | [] => needle.isEmpty
  | c :: t => needle.isPrefixOf (c :: t) || infixOf needle t

/-- Python `needle in hay` with a literal needle. -/
def strIn (needle : String) (hay : Bytes) : Bool := infixOf needle.data hay

/-- Python `path.lstrip('/')`. -/
def lstripSlash (p : Bytes) : Bytes := p.dropWhile (· == '/')

/-- A NetCDF variable: flattened (row-major) numeric payload and the ordered
attribute table, each attribute value kept in its printable string form
(`str(attr)` of the Python code applied to it is the identity). -/
structure NcVariable where
  payload : List Int
  attrs : List (Bytes × Bytes)
deriving DecidableEq

/-- The dataset handle: `dataset.variables`, an ordered name-keyed table. -/
structure Dataset where
  variables_ : List (Bytes × NcVariable)
deriving DecidableEq

/-- The key set of `dataset.variables`. -/
def Dataset.varnames (d : Dataset) : List Bytes := d.variables_.map Prod.fst

/-! ### Data representation plugins -/

namespace VardataAsBinaryFiles

/-- `VardataAsBinaryFiles.__call__`: `variable[:].tobytes()` — the
concatenation of the native byte encoding of each payload element
(`elemBytes` models the dtype's per-element encoding). -/
def call (elemBytes : Int → Bytes) (v : NcVariable) : Bytes :=
  (v.payload.map elemBytes).flatten

/-- `VardataAsBinaryFiles.size`: `len(self(variable))`. -/
def size (elemBytes : Int → Bytes) (v : NcVariable) : Nat :=
  (call elemBytes v).length

end VardataAsBinaryFiles

namespace VardataAsFlatTextFiles

/-- `VardataAsFlatTextFiles.__call__`:
`''.join(numpy.char.mod('fmt\n', variable[:].flatten()))` — each flattened
element formatted with the configured format string, one per line. -/
def call (fmt : Int → Bytes) (v : NcVariable) : Bytes :=
  (v.payload.map (fun x => fmt x ++ "\n".data)).flatten

/-- `VardataAsFlatTextFiles.size`: `len(self(variable))`. -/
def size (fmt : Int → Bytes) (v : NcVariable) : Nat :=
  (call fmt v).length

end VardataAsFlatTextFiles

namespace AttributesAsTextFiles

/-- `AttributesAsTextFiles.__call__`: `str(attr) + '\n'`. -/
def call (attr : Bytes) : Bytes := attr ++ "\n".data

/-- `AttributesAsTextFiles.size`: `len(self(attr))`. -/
def size (attr : Bytes) : Nat := (call attr).length

end AttributesAsTextFiles

/-! ### Stat records and errors -/

/-- The `statdict` built by `NCFS.getattr`. Timestamps are opaque numbers. -/
structure Statdict where
  st_atime : Nat
  st_ctime : Nat
  st_gid : Nat
  st_mode : Nat
  st_mtime : Nat
  st_nlink : Nat
  st_size : Nat
  st_uid : Nat
deriving DecidableEq

/-- Exceptions the Python code can raise. `fuseOS` is `FuseOSError(errno)`;
`internal` is the `InternalError` defensive failure; `nameErr` is a Python
`NameError` from an undefined identifier (the code references the undefined
name `FuseOSOSError`, and `access` can read a never-bound local); `attrErr`
is `AttributeError` (missing NetCDF attribute, or a never-assigned `self`
attribute); `keyErr` is `KeyError` (missing variable name). -/
inductive PyErr where
  | fuseOS (errno : Nat)
  | internal (msg : String)
  | nameErr
  | attrErr
  | keyErr
deriving DecidableEq

def ENOENT : Nat := 2
def EACCES : Nat := 13
def X_OK : Nat := 1
def R_OK : Nat := 4

/-! ### The NCFS object -/

/-- State of an `NCFS` instance. The duck-typed representation plugins are
kept as their two methods (`__call__` and `size`). `dataset_file` models the
Python attribute of that name: `none` means the attribute was never assigned
(as in `__init__`), `some none` means it holds Python `None`, `some (some f)`
means it holds a filename. -/
structure NCFS where
  dataset : Dataset
  vardata_encode : NcVariable → Bytes
  vardata_size : NcVariable → Nat
  attr_encode : Bytes → Bytes
  attr_size : Bytes → Nat
  mount_time : Nat
  st_uid : Nat
  st_gid : Nat
  dataset_file : Option (Option Bytes)

/-- `NCFS.__init__`: stores the dataset and the two plugins and records the
mount time; it never assigns `self.dataset_file`. -/
def NCFS.init (d : Dataset) (vencode : NcVariable → Bytes)
    (vsize : NcVariable → Nat) (aencode : Bytes → Bytes)
    (asize : Bytes → Nat) (mt uid gid : Nat) : NCFS :=
  { dataset := d, vardata_encode := vencode, vardata_size := vsize,
    attr_encode := aencode, attr_size := asize, mount_time := mt,
    st_uid := uid, st_gid := gid, dataset_file := none }

/-- `NCFS.is_var_dir`: `path.lstrip('/') in self.dataset.variables`. -/
def NCFS.is_var_dir (s : NCFS) (path : Bytes) : Bool :=
  s.dataset.varnames.contains (lstripSlash path)

/-- `NCFS.is_var_data`: `'DATA_REPR' in path`. -/
def NCFS.is_var_data (_s : NCFS) (path : Bytes) : Bool :=
  strIn "DATA_REPR" path

/-- `NCFS.is_var_dimensions`: `'dimensions' in path`. -/
def NCFS.is_var_dimensions (_s : NCFS) (path : Bytes) : Bool :=
  strIn "dimensions" path

/-- `NCFS.is_var_attribute`. -/
def NCFS.is_var_attribute (s : NCFS) (path : Bytes) : Bool :=
  if strIn ".Trash" path then false
  else !(s.is_var_dir path || s.is_var_data path || s.is_var_dimensions path)

/-- `NCFS.exists`: the stub that always returns `True`. -/
def NCFS.exists_ (_s : NCFS) (_path : Bytes) : Bool := true

/-- `NCFS.is_dir`. -/
def NCFS.is_dir (s : NCFS) (path : Bytes) : Bool := s.is_var_dir path

/-- `NCFS.is_blacklisted`: `'.Trash' in path`. -/
def NCFS.is_blacklisted (_s : NCFS) (path : Bytes) : Bool :=
  strIn ".Trash" path

/-- `NCFS.is_file`: `not self.is_dir(path)`. -/
def NCFS.is_file (s : NCFS) (path : Bytes) : Bool := !s.is_dir path

/-- `NCFS.get_varname`: `path.lstrip('/').split('/', 1)[0]`. -/
def NCFS.get_varname (_s : NCFS) (path : Bytes) : Bytes :=
  (lstripSlash path).takeWhile (· != '/')

/-- `NCFS.get_attrname`: `path.split('/')[-1]` — the suffix after the last
separator. -/
def NCFS.get_attrname (_s : NCFS) (path : Bytes) : Bytes :=
  (path.reverse.takeWhile (· != '/')).reverse

/-- `NCFS.get_variable`: `self.dataset.variables[varname]`; a missing key is
a `KeyError`, modelled by `none`. -/
def NCFS.get_variable (s : NCFS) (path : Bytes) : Option NcVariable :=
  s.dataset.variables_.lookup (s.get_varname path)

/-- `NCFS.get_attribute`:
`self.dataset.variables[varname].getncattr(attrname)`; a missing variable or
attribute raises, modelled by `none`. -/
def NCFS.get_attribute (s : NCFS) (path : Bytes) : Option Bytes :=
  (s.get_variable path).bind (fun v => v.attrs.lookup (s.get_attrname path))

/-- `NCFS.getncAttrs`: the attribute names of the variable at `path`. Its
only caller (`readdir`) first checks that the variable exists, so the
default `[]` for a missing variable is never observable. -/
def NCFS.getncAttrs (s : NCFS) (path : Bytes) : List Bytes :=
  ((s.get_variable path).map (fun v => v.attrs.map Prod.fst)).getD []

/-- `NCFS.makeIntoDir`:
`st_mode = st_mode ^ 0o100000 | 0o040000`, then for each of
`[0o400, 0o100], [0o40, 0o10], [0o4, 0o1]`: if the first mask hits, or in
the second. -/
def NCFS.makeIntoDir (statdict : Statdict) : Statdict :=
  let m0 := (statdict.st_mode ^^^ 0o100000) ||| 0o040000
  let m := [(0o400, 0o100), (0o40, 0o10), (0o4, 0o1)].foldl
    (fun m i => if m &&& i.1 != 0 then m ||| i.2 else m) m0
  { statdict with st_mode := m }

/-- The default `statdict` of `NCFS.getattr` (a regular file, mode `33188`
= `0o100644`, nominal size 4096). -/
def baseStatdict (mount_time uid gid : Nat) : Statdict :=
  { st_atime := mount_time, st_ctime := mount_time, st_gid := gid,
    st_mode := 33188, st_mtime := mount_time, st_nlink := 1,
    st_size := 4096, st_uid := uid }

/-- `NCFS.getattr`. The Python error messages interpolate the path; the
embedded messages drop that interpolation (it never influences control
flow). -/
def NCFS.getattr (s : NCFS) (path : Bytes) : Except PyErr Statdict :=
  let statdict := baseStatdict s.mount_time s.st_uid s.st_gid
  let p := lstripSlash path
  if p = [] then .ok (NCFS.makeIntoDir statdict)
  else if s.is_blacklisted p then .ok statdict
  else if !(s.exists_ p) then .error (.fuseOS ENOENT)
  else if s.is_var_dir p then
    .ok { NCFS.makeIntoDir statdict with st_size := 4096 }
  else if s.is_var_attribute p then
    match s.get_attribute p with
    | some attr => .ok { statdict with st_size := s.attr_size attr }
    | none => .error .attrErr
  else if s.is_var_data p then
    match s.get_variable p with
    | some var => .ok { statdict with st_size := s.vardata_size var }
    | none => .error .keyErr
  else .error (.internal "getattr: unexpected path")

/-- `NCFS.readdir`. At the root the Python code utf-8-encodes each variable
name; on these byte strings that is the identity. -/
def NCFS.readdir (s : NCFS) (path : Bytes) : List Bytes :=
  let p := lstripSlash path
  if p = [] then ".".data :: "..".data :: s.dataset.varnames
  else if s.dataset.varnames.contains p then
    ".".data :: "..".data :: (s.getncAttrs p ++ ["DATA_REPR".data])
  else [".".data, "..".data]

/-- `NCFS.access`. `osAccess` models the external `os.access` check against
the backing file. If `self.dataset_file` was never assigned, reading it
raises `AttributeError`; if it is `None`, the local `path` is never bound
and `os.access(path, mode)` raises `NameError`. -/
def NCFS.access (s : NCFS) (osAccess : Bytes → Nat → Bool) (mode : Nat) :
    Except PyErr Unit :=
  match s.dataset_file with
  | none => .error .attrErr
  | some none => .error .nameErr
  | some (some df) =>
    let m := if mode = X_OK then R_OK else mode
    if osAccess df m then .ok () else .error (.fuseOS EACCES)

/-- `NCFS.open`: `raise FuseOSOSError('not a file')` names an undefined
identifier, so evaluating it raises `NameError`. -/
def NCFS.open_ (s : NCFS) (path : Bytes) (_flags : Nat) : Except PyErr Nat :=
  if !s.is_file path then .error .nameErr
  else .ok 0

/-- `NCFS.read`: windowed slice `repr[offset:offset+size]` of the
materialized representation (offsets are the adapter's non-negative byte
offsets, so Python slicing is drop-then-take). -/
def NCFS.read (s : NCFS) (path : Bytes) (size offset : Nat) :
    Except PyErr Bytes :=
  if s.is_var_attribute path then
    match s.get_attribute path with
    | some attr => .ok (((s.attr_encode attr).drop offset).take size)
    | none => .error .attrErr
  else if s.is_var_data path then
    match s.get_variable path with
    | some var => .ok (((s.vardata_encode var).drop offset).take size)
    | none => .error .keyErr
  else .error (.internal "read: unexpected path")

/-- `NCFS.write`: `return len(data)`; the body touches nothing else, so the
instance state is returned unchanged. -/
def NCFS.write (s : NCFS) (_path : Bytes) (data : Bytes) (_offset : Nat) :
    Except PyErr Nat × NCFS :=
  (.ok data.length, s)

/-- The full materialized representation `read` slices from: exactly
`read`'s dispatch, with the full window. `none` when `read` would not reach
a representation. -/
def NCFS.fullRepr (s : NCFS) (path : Bytes) : Option Bytes :=
  if s.is_var_attribute path then (s.get_attribute path).map s.attr_encode
  else if s.is_var_data path then (s.get_variable path).map s.vardata_encode
  else none


/-! ### C2: the PathReference classifier of the specification -/

/-- The spec's `PathReference` tagged union (§3). -/
inductive PathReference where
  | Root
  | VariableDir (name : Bytes)
  | DataNode (name : Bytes)
  | DimensionsNode (name : Bytes)
  | AttributeNode (name attrName : Bytes)
  | Blacklisted (rawPath : Bytes)
deriving DecidableEq

/-- The spec-side classifier, following the words of §4.1 (this is the
spec's view, used to state the refinement claim C2; the code itself has no
such function): strip a single leading separator; empty ⇒ `Root`;
`.Trash` anywhere in the raw path ⇒ `Blacklisted`; one segment ⇒
`VariableDir`; second segment `DATA_REPR` ⇒ `DataNode`; second segment
`dimensions` ⇒ `DimensionsNode`; any other second segment ⇒
`AttributeNode`. Total by construction. -/
def specClassify (path : Bytes) : PathReference :=
  let p := if path.head? = some '/' then path.tail else path
  if p = [] then .Root
  else if strIn ".Trash" path then .Blacklisted path
  else
    let name := p.takeWhile (· != '/')
    match p.dropWhile (· != '/') with
    | [] => .VariableDir name
    | _ :: r =>
      let seg2 := r.takeWhile (· != '/')
      if seg2 = "DATA_REPR".data then .DataNode name
      else if seg2 = "dimensions".data then .DimensionsNode name
      else .AttributeNode name seg2


/-! ### Concrete instances used by the end-to-end claims -/

/-- Decimal digit character. -/
def digitChar (d : Nat) : Char := Char.ofNat (48 + d)

/-- Decimal digits of a natural number (fuel-based helper). -/
def natDigitsAux : Nat → Nat → List Char
  | 0, _ => []
  | fuel + 1, n =>
    if n < 10 then [digitChar n]
    else natDigitsAux fuel (n / 10) ++ [digitChar (n % 10)]

/-- Decimal digits of a natural number. -/
def natDigits (n : Nat) : List Char := natDigitsAux (n + 1) n

/-- The C format `%.1f` restricted to integer-valued samples: the decimal
digits followed by `.0` (sign in front for negatives). This is the format
the specification's end-to-end example configures, applied to its payload
`[1.0, 2.0]` of integral values. -/
def fmtF1 (z : Int) : Bytes :=
  (if z < 0 then ['-'] else []) ++ natDigits z.natAbs ++ ".0".data

/-- The specification's end-to-end dataset: one variable `temp` with
attribute `units = "K"` and payload `[1.0, 2.0]`. -/
def dsEx : Dataset :=
  ⟨[("temp".data, ⟨[1, 2], [("units".data, "K".data)]⟩)]⟩

/-- The end-to-end `NCFS` instance: flat-text data representation with
format `%.1f`, text attribute representation, mount time and ids 0. -/
def ncfsEx : NCFS :=
  NCFS.init dsEx (VardataAsFlatTextFiles.call fmtF1)
    (VardataAsFlatTextFiles.size fmtF1) AttributesAsTextFiles.call
    AttributesAsTextFiles.size 0 0 0

/-- A second dataset: `temp` additionally carries an attribute whose name
`dimensionsX` merely contains the substring `dimensions`. -/
def dsB : Dataset :=
  ⟨[("temp".data,
     ⟨[1, 2], [("units".data, "K".data), ("dimensionsX".data, "42".data)]⟩)]⟩

/-- `NCFS` instance over `dsB`, same plugins as `ncfsEx`. -/
def ncfsB : NCFS :=
  NCFS.init dsB (VardataAsFlatTextFiles.call fmtF1)
    (VardataAsFlatTextFiles.size fmtF1) AttributesAsTextFiles.call
    AttributesAsTextFiles.size 0 0 0

/-! ### C4: size/encode consistency of the representation plugins -/

/-- C4: for each representation strategy (binary variable data, flat-text
variable data, attribute text) and every accepted input, the reported
`size` equals the byte length of the `encode` result. In the source each
`size` is literally `len(self(x))`, so the property holds definitionally. -/
theorem repr_size_eq_encode_len :
    (∀ (elemBytes : Int → Bytes) (v : NcVariable),
      VardataAsBinaryFiles.size elemBytes v =
        (VardataAsBinaryFiles.call elemBytes v).length) ∧
    (∀ (fmt : Int → Bytes) (v : NcVariable),
      VardataAsFlatTextFiles.size fmt v =
        (VardataAsFlatTextFiles.call fmt v).length) ∧
    (∀ attr : Bytes,
      AttributesAsTextFiles.size attr =
        (AttributesAsTextFiles.call attr).length) :=
  ⟨fun _ _ => rfl, fun _ _ => rfl, fun _ => rfl⟩

/-! ### C8: write is a silently-accepted no-op -/

/-- C8 (amended): `write` returns `len(data)` and leaves the instance state
untouched, so every subsequent operation behaves as if the write never
happened; but the result is a plain success value — the caller is *not*
told that writes are unsupported. -/
theorem write_noop (s : NCFS) (path data : Bytes) (offset : Nat) :
    (s.write path data offset).1 = .ok data.length ∧
    (s.write path data offset).2 = s :=
  ⟨rfl, rfl⟩

/-- C8 counterexample: `write` reports plain success (`len(data) = 2`,
no error of any kind), so the caller is never told that the write was
discarded — refuting the claim that the caller is told writes are
unsupported rather than the write being silently ignored. -/
theorem write_silent_success_counterexample :
    (ncfsEx.write "/temp/units".data "xy".data 0).1 = .ok 2 ∧
    (ncfsEx.write "/temp/units".data "xy".data 0).2 = ncfsEx :=
  ⟨rfl, rfl⟩

/-! ### C10: access crashes on the missing dataset_file attribute -/

/-- C10: `NCFS.access` always fails with `AttributeError`, for every
constructed instance, every mode and every behaviour of the external
`os.access` check: `__init__` never assigns `self.dataset_file`, so the
very first statement of `access` raises. (Independently, the adapter
spells its hook `acccess`, so FUSE never even reaches this method.) -/
theorem access_attribute_error (d : Dataset) (vencode : NcVariable → Bytes)
    (vsize : NcVariable → Nat) (aencode : Bytes → Bytes)
    (asize : Bytes → Nat) (mt uid gid : Nat)
    (osAccess : Bytes → Nat → Bool) (mode : Nat) :
    (NCFS.init d vencode vsize aencode asize mt uid gid).access osAccess
      mode = .error .attrErr :=
  rfl

/-! ### C6: open on directories -/

/-- C6: evaluation of `open` at the failing inputs. Opening the root
succeeds with `0` (the claim says it must always fail): `is_file('/')`
is true because `is_dir` only recognizes variable directories. Opening a
variable directory does fail, but with a Python `NameError` — the raise
statement names the undefined identifier `FuseOSOSError` (a typo for
`FuseOSError`) — not with an `InvalidOperation`-kind FUSE error. -/
theorem open_root_and_dir_behavior :
    ncfsEx.open_ "/".data 0 = .ok 0 ∧
    ncfsEx.open_ "/temp".data 0 = .error .nameErr :=
  ⟨rfl, rfl⟩

/-! ### C7: the end-to-end example -/

/-- C7: on the dataset with variable `temp` (attribute `units = "K"`,
payload `[1.0, 2.0]`, flat-text format `%.1f`): `/temp` stats as a
directory (mode `16877 = 0o040755`: directory bit plus `rwxr-xr-x`,
nominal size 4096); `/temp/units` stats as a regular file (mode
`33188 = 0o100644`) of size 2 with content `"K\n"`; `/temp/DATA_REPR`
stats as a regular file of size 8 with content `"1.0\n2.0\n"`; listing
`/temp` yields exactly `.`, `..`, `units`, `DATA_REPR` and listing `/`
yields exactly `.`, `..`, `temp`. -/
theorem end_to_end_example :
    ncfsEx.getattr "/temp".data =
      .ok { st_atime := 0, st_ctime := 0, st_gid := 0, st_mode := 16877,
            st_mtime := 0, st_nlink := 1, st_size := 4096, st_uid := 0 } ∧
    ncfsEx.getattr "/temp/units".data =
      .ok { st_atime := 0, st_ctime := 0, st_gid := 0, st_mode := 33188,
            st_mtime := 0, st_nlink := 1, st_size := 2, st_uid := 0 } ∧
    ncfsEx.read "/temp/units".data 2 0 = .ok "K\n".data ∧
    ncfsEx.getattr "/temp/DATA_REPR".data =
      .ok { st_atime := 0, st_ctime := 0, st_gid := 0, st_mode := 33188,
            st_mtime := 0, st_nlink := 1, st_size := 8, st_uid := 0 } ∧
    ncfsEx.read "/temp/DATA_REPR".data 8 0 = .ok "1.0\n2.0\n".data ∧
    ncfsEx.readdir "/temp".data =
      [".".data, "..".data, "units".data, "DATA_REPR".data] ∧
    ncfsEx.readdir "/".data = [".".data, "..".data, "temp".data] :=
  ⟨rfl, rfl, rfl, rfl, rfl, rfl, rfl⟩


lemma and_pow_ne_testBit (m i : Nat) : (m &&& 2 ^ i != 0) = m.testBit i := by
  rw [Nat.and_two_pow]
  cases h : m.testBit i <;>
    simp [h, Nat.pos_iff_ne_zero.mp (Nat.two_pow_pos i)]

lemma and256 (m : Nat) : (m &&& 256 != 0) = m.testBit 8 := by
  have := and_pow_ne_testBit m 8; norm_num at this; exact this

lemma and32 (m : Nat) : (m &&& 32 != 0) = m.testBit 5 := by
  have := and_pow_ne_testBit m 5; norm_num at this; exact this

lemma and4 (m : Nat) : (m &&& 4 != 0) = m.testBit 2 := by
  have := and_pow_ne_testBit m 2; norm_num at this; exact this

/-- C3 (amended): `makeIntoDir` always sets the directory type bit
(bit 14, `0o040000`), and for each of the owner/group/other classes the
execute bit of the output is set iff the corresponding *read* bit **or**
the corresponding *execute* bit was set in the input word: the loop only
ever sets execute bits (read ⇒ execute), it never clears one that was
already present, so the claim's plain "iff read" fails for inputs that
arrive with an execute bit but no read bit. (Bit pairs: owner 8→6,
group 5→3, other 2→0.) -/
theorem makeIntoDir_bits (sd : Statdict) :
    ((NCFS.makeIntoDir sd).st_mode.testBit 14 = true) ∧
    ((NCFS.makeIntoDir sd).st_mode.testBit 6 =
      (sd.st_mode.testBit 8 || sd.st_mode.testBit 6)) ∧
    ((NCFS.makeIntoDir sd).st_mode.testBit 3 =
      (sd.st_mode.testBit 5 || sd.st_mode.testBit 3)) ∧
    ((NCFS.makeIntoDir sd).st_mode.testBit 0 =
      (sd.st_mode.testBit 2 || sd.st_mode.testBit 0)) := by
  set x := sd.st_mode with hx
  simp only [NCFS.makeIntoDir, List.foldl, and256, and32, and4]
  rcases h8 : x.testBit 8 <;> rcases h5 : x.testBit 5 <;>
    rcases h2 : x.testBit 2 <;>
    simp [Nat.testBit_lor, Nat.testBit_xor, h8, h5, h2,
      show (32768 : Nat).testBit 8 = false from by decide,
      show (16384 : Nat).testBit 8 = false from by decide,
      show (32768 : Nat).testBit 5 = false from by decide,
      show (16384 : Nat).testBit 5 = false from by decide,
      show (32768 : Nat).testBit 2 = false from by decide,
      show (16384 : Nat).testBit 2 = false from by decide,
      show (32768 : Nat).testBit 14 = false from by decide,
      show (16384 : Nat).testBit 14 = true from by decide,
      show (32768 : Nat).testBit 6 = false from by decide,
      show (16384 : Nat).testBit 6 = false from by decide,
      show (64 : Nat).testBit 6 = true from by decide,
      show (64 : Nat).testBit 5 = false from by decide,
      show (64 : Nat).testBit 2 = false from by decide,
      show (64 : Nat).testBit 14 = false from by decide,
      show (64 : Nat).testBit 3 = false from by decide,
      show (64 : Nat).testBit 0 = false from by decide,
      show (32768 : Nat).testBit 3 = false from by decide,
      show (16384 : Nat).testBit 3 = false from by decide,
      show (8 : Nat).testBit 3 = true from by decide,
      show (8 : Nat).testBit 2 = false from by decide,
      show (8 : Nat).testBit 14 = false from by decide,
      show (8 : Nat).testBit 6 = false from by decide,
      show (8 : Nat).testBit 0 = false from by decide,
      show (32768 : Nat).testBit 0 = false from by decide,
      show (16384 : Nat).testBit 0 = false from by decide,
      show (1 : Nat).testBit 0 = true from by decide,
      show (1 : Nat).testBit 14 = false from by decide,
      show (1 : Nat).testBit 6 = false from by decide,
      show (1 : Nat).testBit 3 = false from by decide] <;>
    omega

/-- C3 counterexample: input mode `32769 = 0o100001` (regular file,
other-execute set, other-read clear). The output has the other-execute
bit set although the input's other-read bit was clear, refuting
"execute set iff read was set". -/
theorem makeIntoDir_exec_counterexample :
    (NCFS.makeIntoDir
      { st_atime := 0, st_ctime := 0, st_gid := 0, st_mode := 32769,
        st_mtime := 0, st_nlink := 1, st_size := 4096,
        st_uid := 0 }).st_mode.testBit 0 = true ∧
    (32769 : Nat).testBit 2 = false :=
  ⟨rfl, rfl⟩


/-! ### Substring and path infrastructure lemmas -/

lemma infixOf_dropWhile (d : Char) (n' p : Bytes) (hd : (d == '/') = false)
    (h : infixOf (d :: n') p = true) :
    infixOf (d :: n') (lstripSlash p) = true ∧ lstripSlash p ≠ [] := by
  induction p with
  | nil => simp [infixOf] at h
  | cons c t ih =>
    by_cases hc : (c == '/') = true
    · have hc' : c = '/' := by simpa using hc
      have ht : infixOf (d :: n') t = true := by
        rw [infixOf, Bool.or_eq_true] at h
        rcases h with h | h
        · exfalso
          rw [List.isPrefixOf] at h
          rw [Bool.and_eq_true] at h
          have : d = c := by simpa using h.1
          rw [this, hc'] at hd
          simp at hd
        · exact h
      have := ih ht
      simpa [lstripSlash, List.dropWhile, hc'] using this
    · have hc' : (c == '/') = false := by simpa using hc
      constructor
      · simpa [lstripSlash, List.dropWhile, hc'] using h
      · simp [lstripSlash, List.dropWhile, hc']

lemma strIn_trash_lstrip (p : Bytes) (h : strIn ".Trash" p = true) :
    strIn ".Trash" (lstripSlash p) = true ∧ lstripSlash p ≠ [] := by
  exact infixOf_dropWhile '.' "Trash".data p (by decide) h

/-! ### C9: blacklisted paths get the dataset-independent stub record -/

/-- C9: for every path containing `.Trash`, `getattr` succeeds with the
default regular-file stub record, which depends only on the mount-time
configuration (time stamp, uid, gid) — not on the dataset or the
representation plugins; hence two instances differing arbitrarily in
dataset and plugins but sharing the mount configuration return identical
records, even when the path has no counterpart in the dataset. -/
theorem blacklisted_getattr_stub (s₁ s₂ : NCFS) (path : Bytes)
    (h : strIn ".Trash" path = true)
    (hmt : s₁.mount_time = s₂.mount_time) (huid : s₁.st_uid = s₂.st_uid)
    (hgid : s₁.st_gid = s₂.st_gid) :
    s₁.getattr path = .ok (baseStatdict s₁.mount_time s₁.st_uid s₁.st_gid) ∧
    s₁.getattr path = s₂.getattr path := by
  obtain ⟨hin, hne⟩ := strIn_trash_lstrip path h
  have stub : ∀ s : NCFS, s.getattr path =
      .ok (baseStatdict s.mount_time s.st_uid s.st_gid) := by
    intro s
    unfold NCFS.getattr
    rw [if_neg hne]
    have : s.is_blacklisted (lstripSlash path) = true := hin
    rw [if_pos this]
  refine ⟨stub s₁, ?_⟩
  rw [stub s₁, stub s₂, hmt, huid, hgid]

/-- C9 witness at a concrete input: two different datasets (`dsEx`, `dsB`),
path `/.Trash/x` (absent from both), identical stub results. -/
theorem blacklisted_getattr_stub_witness :
    ncfsEx.getattr "/.Trash/x".data = .ok (baseStatdict 0 0 0) ∧
    ncfsEx.getattr "/.Trash/x".data = ncfsB.getattr "/.Trash/x".data :=
  blacklisted_getattr_stub ncfsEx ncfsB "/.Trash/x".data (by decide) rfl rfl
    rfl


/-! ### C5: windowed reads slice the full representation -/

/-- C5: whenever `read`'s dispatch reaches a materialized representation
(`fullRepr path = some R`), every windowed read returns exactly the byte
slice `[offset, offset+size)` of `R`; in particular reading `(size = |R|,
offset = 0)` returns all of `R`, and any offset beyond `|R|` returns the
empty byte string. -/
theorem read_window_slicing (s : NCFS) (path : Bytes) (R : Bytes)
    (h : s.fullRepr path = some R) :
    s.read path R.length 0 = .ok R ∧
    (∀ size offset, R.length < offset → s.read path size offset = .ok []) ∧
    (∀ size offset,
      s.read path size offset = .ok ((R.drop offset).take size)) := by
  have hslice : ∀ size offset,
      s.read path size offset = .ok ((R.drop offset).take size) := by
    intro size offset
    unfold NCFS.fullRepr at h
    unfold NCFS.read
    by_cases ha : s.is_var_attribute path = true
    · rw [if_pos ha] at h ⊢
      cases hA : s.get_attribute path with
      | none => rw [hA] at h; simp at h
      | some a =>
        rw [hA] at h
        simp only [Option.map_some'] at h
        obtain rfl := Option.some.inj h
        rfl
    · rw [if_neg ha] at h ⊢
      by_cases hd : s.is_var_data path = true
      · rw [if_pos hd] at h ⊢
        cases hV : s.get_variable path with
        | none => rw [hV] at h; simp at h
        | some v =>
          rw [hV] at h
          simp only [Option.map_some'] at h
          obtain rfl := Option.some.inj h
          rfl
      · rw [if_neg hd] at h
        simp at h
  refine ⟨?_, ?_, hslice⟩
  · have := hslice R.length 0
    simpa using this
  · intro size offset hlt
    have := hslice size offset
    rw [List.drop_eq_nil_of_le (Nat.le_of_lt hlt)] at this
    simpa using this


/-- C5 witness at `/temp/units` (representation `"K\n"`, length 2): full
read, out-of-range offset, and a proper sub-window. -/
theorem read_window_slicing_witness :
    ncfsEx.read "/temp/units".data 2 0 = .ok "K\n".data ∧
    ncfsEx.read "/temp/units".data 5 3 = .ok [] ∧
    ncfsEx.read "/temp/units".data 1 1 = .ok "\n".data := by
  have h := read_window_slicing ncfsEx "/temp/units".data "K\n".data rfl
  exact ⟨h.1, h.2.1 5 3 (by decide), h.2.2 1 1⟩


/-! ### More substring / path lemmas (for C1 and C2) -/

lemma infixOf_iff (n h : Bytes) : infixOf n h = true ↔ n <:+: h := by
  induction h with
  | nil =>
    constructor
    · intro hh
      have hn : n = [] := by
        cases n with
        | nil => rfl
        | cons a t => simp [infixOf, List.isEmpty] at hh
      subst hn
      exact ⟨[], [], rfl⟩
    · intro hh
      obtain ⟨s, e, hse⟩ := hh
      obtain ⟨h1, -⟩ := List.append_eq_nil.mp hse
      obtain ⟨-, hn⟩ := List.append_eq_nil.mp h1
      simp [infixOf, hn]
  | cons c t ih =>
    rw [infixOf, Bool.or_eq_true, ih]
    constructor
    · rintro (hp | hi)
      · exact ( List.isPrefixOf_iff_prefix.mp hp).isInfix
      · obtain ⟨s, e, ht⟩ := hi
        exact ⟨c :: s, e, by rw [← ht]; simp⟩
    · intro hinf
      obtain ⟨s, e, hse⟩ := hinf
      cases s with
      | nil =>
        left
        exact List.isPrefixOf_iff_prefix.mpr ⟨e, by simpa using hse⟩
      | cons a s' =>
        right
        have h1 : a = c ∧ s' ++ n ++ e = t := by simpa using hse
        exact ⟨s', e, h1.2⟩

lemma strIn_false_of_suffix (n : String) {t p : Bytes} (hs : t <:+ p)
    (h : strIn n p = false) : strIn n t = false := by
  cases hin : strIn n t
  · rfl
  · exfalso
    have h2 : n.data <:+: p :=
      ((infixOf_iff _ _).mp hin).trans hs.isInfix
    have h3 : strIn n p = true := (infixOf_iff _ _).mpr h2
    rw [h3] at h
    exact Bool.noConfusion h

lemma takeWhile_ne_slash (v x : Bytes) (h : '/' ∉ v) :
    (v ++ '/' :: x).takeWhile (· != '/') = v := by
  induction v with
  | nil => simp
  | cons c t ih =>
    have hc : c ≠ '/' := fun e => h (by simp [e])
    have hrec := ih (fun hm => h (List.mem_cons_of_mem _ hm))
    simp only [List.cons_append]
    rw [List.takeWhile_cons_of_pos (by simpa using hc), hrec]

lemma lstrip_append (v x : Bytes) (hv : v ≠ []) (h : '/' ∉ v) :
    lstripSlash (v ++ '/' :: x) = v ++ '/' :: x := by
  cases v with
  | nil => exact absurd rfl hv
  | cons c t =>
    have hc : c ≠ '/' := fun e => h (by simp [e])
    simp only [List.cons_append, lstripSlash]
    rw [List.dropWhile_cons_of_neg (by simpa using hc)]

lemma get_attrname_append (s : NCFS) (w x : Bytes) (hx : '/' ∉ x) :
    s.get_attrname (w ++ '/' :: x) = x := by
  unfold NCFS.get_attrname
  have hrev : (w ++ '/' :: x).reverse = x.reverse ++ '/' :: w.reverse := by
    simp
  rw [hrev, takeWhile_ne_slash x.reverse w.reverse (by simpa using hx),
    List.reverse_reverse]


/-! ### C1: attribute-path classification and dispatch -/

/-- C1 (amended): for a variable `v` of the dataset and a second segment
`x` naming an existing attribute with value `a`, provided the full path
`/v/x` contains none of the substrings `DATA_REPR`, `dimensions`, `.Trash`
(the code tests substring containment on the whole path, not equality of
the second segment) and `v/x` is not itself a variable name: the path is
classified as a variable attribute, `getattr` reports the regular-file
stub with `st_size` taken from the attribute representation, and every
`read` window slices the attribute representation. -/
theorem attribute_path_dispatch (s : NCFS) (v x a : Bytes) (var : NcVariable)
    (hv : v ≠ []) (hvs : '/' ∉ v) (hxs : '/' ∉ x)
    (hvar : s.dataset.variables_.lookup v = some var)
    (hattr : var.attrs.lookup x = some a)
    (hnovd : s.dataset.varnames.contains (v ++ '/' :: x) = false)
    (hnd : strIn "DATA_REPR" ('/' :: (v ++ '/' :: x)) = false)
    (hdim : strIn "dimensions" ('/' :: (v ++ '/' :: x)) = false)
    (htr : strIn ".Trash" ('/' :: (v ++ '/' :: x)) = false) :
    s.is_var_attribute ('/' :: (v ++ '/' :: x)) = true ∧
    s.getattr ('/' :: (v ++ '/' :: x)) =
      .ok { baseStatdict s.mount_time s.st_uid s.st_gid with
            st_size := s.attr_size a } ∧
    ∀ size offset, s.read ('/' :: (v ++ '/' :: x)) size offset =
      .ok (((s.attr_encode a).drop offset).take size) := by
  set p := v ++ '/' :: x with hp
  set raw := '/' :: p with hraw
  have hpne : p ≠ [] := by
    rw [hp]; cases v with
    | nil => exact absurd rfl hv
    | cons c t => simp
  have hsuf : p <:+ raw := ⟨['/'], rfl⟩
  have hlstp : lstripSlash p = p := lstrip_append v x hv hvs
  have hlstraw : lstripSlash raw = p := by
    rw [hraw, lstripSlash, List.dropWhile_cons_of_pos (by simp)]
    exact hlstp
  have hndp : strIn "DATA_REPR" p = false := strIn_false_of_suffix _ hsuf hnd
  have hdimp : strIn "dimensions" p = false :=
    strIn_false_of_suffix _ hsuf hdim
  have htrp : strIn ".Trash" p = false := strIn_false_of_suffix _ hsuf htr
  have hdirp : s.is_var_dir p = false := by
    rw [NCFS.is_var_dir, hlstp]; exact hnovd
  have hdirraw : s.is_var_dir raw = false := by
    rw [NCFS.is_var_dir, hlstraw]; exact hnovd
  have hattrp : s.is_var_attribute p = true := by
    rw [NCFS.is_var_attribute, if_neg (by rw [htrp]; exact Bool.false_ne_true)]
    rw [NCFS.is_var_data, NCFS.is_var_dimensions, hdirp, hndp, hdimp]
    rfl
  have hattrraw : s.is_var_attribute raw = true := by
    rw [NCFS.is_var_attribute, if_neg (by rw [htr]; exact Bool.false_ne_true)]
    rw [NCFS.is_var_data, NCFS.is_var_dimensions, hdirraw, hnd, hdim]
    rfl
  have hvnp : s.get_varname p = v := by
    rw [NCFS.get_varname, hlstp, hp]
    exact takeWhile_ne_slash v x hvs
  have hvnraw : s.get_varname raw = v := by
    rw [NCFS.get_varname, hlstraw, hp]
    exact takeWhile_ne_slash v x hvs
  have hanp : s.get_attrname p = x := by
    rw [hp]; exact get_attrname_append s v x hxs
  have hanraw : s.get_attrname raw = x := by
    have : raw = ('/' :: v) ++ '/' :: x := by rw [hraw, hp]; rfl
    rw [this]; exact get_attrname_append s ('/' :: v) x hxs
  have hgap : s.get_attribute p = some a := by
    rw [NCFS.get_attribute, NCFS.get_variable, hvnp, hvar, hanp]
    simp [hattr]
  have hgaraw : s.get_attribute raw = some a := by
    rw [NCFS.get_attribute, NCFS.get_variable, hvnraw, hvar, hanraw]
    simp [hattr]
  refine ⟨hattrraw, ?_, ?_⟩
  · rw [NCFS.getattr]
    simp only [hlstraw]
    rw [if_neg hpne]
    rw [if_neg (by rw [NCFS.is_blacklisted, htrp]; exact Bool.false_ne_true)]
    rw [if_neg (by rw [NCFS.exists_]; simp)]
    rw [if_neg (by rw [hdirp]; exact Bool.false_ne_true)]
    rw [if_pos hattrp, hgap]
  · intro size offset
    rw [NCFS.read, if_pos hattrraw, hgaraw]


/-- C1 witness: `/temp/units` on the end-to-end instance. -/
theorem attribute_path_dispatch_witness :
    ncfsEx.is_var_attribute "/temp/units".data = true ∧
    ncfsEx.getattr "/temp/units".data =
      .ok { baseStatdict 0 0 0 with st_size := 2 } ∧
    ncfsEx.read "/temp/units".data 2 0 = .ok "K\n".data := by
  have h := attribute_path_dispatch ncfsEx "temp".data "units".data "K".data
      ⟨[1, 2], [("units".data, "K".data)]⟩ (by decide) (by decide) (by decide)
      rfl rfl (by decide) (by decide) (by decide) (by decide)
  exact ⟨h.1, h.2.1, h.2.2 2 0⟩

/-- C1 counterexample: in `dsB` the variable `temp` exists and carries an
attribute literally named `dimensionsX` — a second segment different from
both `DATA_REPR` and `dimensions`, on a path free of `.Trash` — yet the
path is *not* classified as an attribute (the code's substring test sees
`dimensions` inside `dimensionsX`), `getattr` raises the fatal
`InternalError` instead of reporting a file record sized by the attribute
representation, and `read` raises it too instead of dispatching to the
attribute representation. -/
theorem attribute_substring_counterexample :
    dsB.varnames.contains "temp".data = true ∧
    ncfsB.get_attribute "/temp/dimensionsX".data = some "42".data ∧
    ncfsB.is_var_attribute "/temp/dimensionsX".data = false ∧
    ncfsB.getattr "/temp/dimensionsX".data =
      .error (.internal "getattr: unexpected path") ∧
    ncfsB.read "/temp/dimensionsX".data 3 0 =
      .error (.internal "read: unexpected path") :=
  ⟨rfl, rfl, rfl, rfl, rfl⟩

/-- C2 counterexample: `/temp/dimensions` is well formed — §4.1 classifies
it as `DimensionsNode temp`, one of the six `PathReference` variants — yet
`getattr` reaches the defensive `InternalError` branch, and so does `read`
even though `open` on this path succeeds. -/
theorem dimensions_internal_counterexample :
    specClassify "/temp/dimensions".data =
      .DimensionsNode "temp".data ∧
    ncfsEx.getattr "/temp/dimensions".data =
      .error (.internal "getattr: unexpected path") ∧
    ncfsEx.open_ "/temp/dimensions".data 0 = .ok 0 ∧
    ncfsEx.read "/temp/dimensions".data 4 0 =
      .error (.internal "read: unexpected path") :=
  ⟨rfl, rfl, rfl, rfl⟩


/-- C2 (amended): exact reachability of the two defensive `InternalError`
branches. `getattr` reaches its branch precisely on paths whose stripped
form is nonempty, not blacklisted, not a variable name, and contains the
substring `dimensions` but not `DATA_REPR` — in particular on every path
the spec classifies as `DimensionsNode`, so the branch is *not*
unreachable under well-formed input. `read`, on a path `open` accepted,
reaches its branch precisely when the path contains `.Trash` or
`dimensions` but not `DATA_REPR` (so also on every `Blacklisted` path). -/
theorem internal_branch_reachability (s : NCFS) (path : Bytes)
    (size offset flags : Nat) :
    (s.getattr path = .error (.internal "getattr: unexpected path") ↔
      (lstripSlash path ≠ [] ∧
       strIn ".Trash" (lstripSlash path) = false ∧
       s.dataset.varnames.contains (lstripSlash path) = false ∧
       strIn "dimensions" (lstripSlash path) = true ∧
       strIn "DATA_REPR" (lstripSlash path) = false)) ∧
    (s.open_ path flags = .ok 0 →
      (s.read path size offset = .error (.internal "read: unexpected path") ↔
        ((strIn ".Trash" path = true ∨ strIn "dimensions" path = true) ∧
         strIn "DATA_REPR" path = false))) := by
  have hpp : lstripSlash (lstripSlash path) = lstripSlash path :=
    List.dropWhile_idempotent _ path
  constructor
  · simp only [NCFS.getattr]
    split_ifs with h0 h1 h2 h3 h4 h5
    · simp [h0]
    · simp only [NCFS.is_blacklisted] at h1
      simp [h1]
    · simp [NCFS.exists_] at h2
    · simp only [NCFS.is_var_dir, hpp] at h3
      simp [h3]
      intro _ _ hmem _
      exact absurd (by simpa using h3) hmem
    · have h1' : ¬strIn ".Trash" (lstripSlash path) = true := h1
      have h4' : strIn "dimensions" (lstripSlash path) = false := by
        simp only [NCFS.is_var_attribute, NCFS.is_blacklisted,
          NCFS.is_var_data, NCFS.is_var_dimensions] at h4
        rw [if_neg h1'] at h4
        simp at h4
        exact h4.2
      cases hA : s.get_attribute (lstripSlash path) <;> simp [hA, h4']
    · have h5' : strIn "DATA_REPR" (lstripSlash path) = true := h5
      cases hV : s.get_variable (lstripSlash path) <;> simp [hV, h5']
    · have hbl : strIn ".Trash" (lstripSlash path) = false := by
        simpa [NCFS.is_blacklisted] using h1
      have hdir : s.dataset.varnames.contains (lstripSlash path) = false := by
        simpa [NCFS.is_var_dir, hpp] using h3
      have hdata : strIn "DATA_REPR" (lstripSlash path) = false := by
        simpa [NCFS.is_var_data] using h5
      have h1' : ¬strIn ".Trash" (lstripSlash path) = true := h1
      have hdim : strIn "dimensions" (lstripSlash path) = true := by
        simp only [NCFS.is_var_attribute, NCFS.is_blacklisted,
          NCFS.is_var_data, NCFS.is_var_dimensions] at h4
        rw [if_neg h1'] at h4
        simp only [NCFS.is_var_dir, hpp] at h4
        simp [hdata] at h4
        exact h4 (by simpa using hdir)
      simp [h0, hbl, hdim, hdata]
      simpa using hdir
  · intro hopen
    have hfile : s.is_file path = true := by
      by_contra hf
      have hf' : (!s.is_file path) = true := by simpa using hf
      rw [NCFS.open_, if_pos hf'] at hopen
      exact Except.noConfusion hopen
    have hdirraw : s.is_var_dir path = false := by
      simpa [NCFS.is_file, NCFS.is_dir] using hfile
    simp only [NCFS.read]
    split_ifs with ha hd
    · by_cases ht : strIn ".Trash" path = true
      · exfalso
        simp only [NCFS.is_var_attribute] at ha
        rw [if_pos ht] at ha
        exact Bool.noConfusion ha
      · have htF : strIn ".Trash" path = false := by simpa using ht
        have hdimF : strIn "dimensions" path = false := by
          simp only [NCFS.is_var_attribute, NCFS.is_var_data,
            NCFS.is_var_dimensions] at ha
          rw [if_neg ht] at ha
          simp at ha
          exact ha.2
        cases hA : s.get_attribute path <;> simp [hA, htF, hdimF]
    · have hdT : strIn "DATA_REPR" path = true := hd
      cases hV : s.get_variable path <;> simp [hV, hdT]
    · have hdataF : strIn "DATA_REPR" path = false := by
        simpa [NCFS.is_var_data] using hd
      have hor : strIn ".Trash" path = true ∨
          strIn "dimensions" path = true := by
        by_cases ht : strIn ".Trash" path = true
        · exact Or.inl ht
        · right
          simp only [NCFS.is_var_attribute, NCFS.is_var_data,
            NCFS.is_var_dimensions] at ha
          rw [if_neg ht] at ha
          simp [hdataF] at ha
          exact ha (by simpa using hdirraw)
      simp [hor, hdataF]

/-- C2 witness: `open` accepts `/.Trash` and `read` then reaches the
defensive branch, as the characterization predicts. -/
theorem internal_branch_reachability_witness :
    ncfsEx.open_ "/.Trash".data 0 = .ok 0 ∧
    ncfsEx.read "/.Trash".data 4 0 =
      .error (.internal "read: unexpected path") := by
  refine ⟨rfl, ?_⟩
  exact ((internal_branch_reachability ncfsEx "/.Trash".data 4 0 0).2
    rfl).mpr (by decide)

end FuseNetcdf
